import Mathlib

/-!
Shallow embedding of the bulk-job orchestration and streaming node
pipeline of the `gatsby-source-shopify-graphql-poc` plugin, together with
theorems settling the frozen claims about it.

The embedding translates the TypeScript/JavaScript sources:
  * `src/unnamed/part_003`  — `pattern`, `attachParentId`, `processorMap`,
    `nodeBuilder.buildNode` (explicit node construction);
  * `src/plugin/src/node-builder.ts` — `nodeBuilder.buildNode` guard;
  * `src/plugin/src/processors/incremental-products.ts` —
    `incrementalProductsProcessor`;
  * `src/plugin/src/operations.ts` / `src/unnamed/part_002` —
    `finishLastOperation`, `completedOperation`;
  * `src/plugin/src/operations.ts` (gatsby-node part) / `src/unnamed/part_000`
    — `makeSourceFromOperation`, `sourceChangedNodes` delete pass,
    `sourceNodes`.

JavaScript objects are modelled as association lists of string keys to a
small JSON-like value type; JS truthiness, `parseInt(s, 10)` and the regex
`/^gid:\/\/shopify\/(\w+)\/(.+)$/` are modelled explicitly.  External
collaborators (`createNodeId`, `createContentDigest`, remote file download,
the GraphQL client's poll responses) are parameters of the definitions.
Recursive polling loops are modelled with explicit fuel: a `none` result
means the loop is still polling after `fuel` iterations.
-/

set_option autoImplicit false

namespace ShopifyPoc

/-- Model of a JavaScript/JSON value as stored in one decoded JSONL record. -/
inductive JValue where
  | str (s : String)
  | num (n : Int)
  | boolean (b : Bool)
  | null
  | undefined
  | obj (fields : List (String × JValue))
deriving Repr

/-- Model of a JavaScript object (`Record<string, any>`): an insertion-ordered
association list of string keys to values. -/
abbrev RawRecord := List (String × JValue)

/-- Reading a property: `obj[k]`, `none` when the key is absent. -/
def getField (r : RawRecord) (k : String) : Option JValue :=
  match r with
  | [] => none
  | (k', v) :: rest => if k' = k then some v else getField rest k

/-- Property access as JavaScript sees it: an absent key reads as `undefined`. -/
def jsGet (r : RawRecord) (k : String) : JValue :=
  (getField r k).getD .undefined

/-- Writing a property: `obj[k] = v` keeps the position of an existing key and
appends a new key at the end, as JavaScript object assignment does. -/
def setField (r : RawRecord) (k : String) (v : JValue) : RawRecord :=
  match r with
  | [] => [(k, v)]
  | (k', v') :: rest => if k' = k then (k', v) :: rest else (k', v') :: setField rest k v

/-- Property deletion: `delete obj[k]`. -/
def removeField (r : RawRecord) (k : String) : RawRecord :=
  match r with
  | [] => []
  | (k', v) :: rest => if k' = k then removeField rest k else (k', v) :: removeField rest k

/-- JavaScript truthiness of a value. -/
def jsTruthy : JValue → Bool
  | .str s => s ≠ ""
  | .num n => n ≠ 0
  | .boolean b => b
  | .null => false
  | .undefined => false
  | .obj _ => true

/-- Strips `pre` from the front of `s`, returning the remainder; `none` when
`pre` is not a prefix. -/
def stripPrefixChars (pre s : List Char) : Option (List Char) :=
  match pre, s with
  | [], rest => some rest
  | _ :: _, [] => none
  | p :: ps, c :: cs => if p = c then stripPrefixChars ps cs else none

/-- Numeric value of a digit string, most significant first. -/
def digitsToNat (ds : List Char) : Nat :=
  ds.foldl (fun acc c => acc * 10 + (c.toNat - '0'.toNat)) 0

/-- Model of JavaScript `parseInt(s, 10)`: skip leading whitespace, read an
optional sign, then the longest digit prefix; `none` models `NaN`. -/
def jsParseInt (s : String) : Option Int :=
  let t := s.data.dropWhile Char.isWhitespace
  let (sgn, t') :=
    match t with
    | '-' :: rest => ((-1 : Int), rest)
    | '+' :: rest => ((1 : Int), rest)
    | rest => ((1 : Int), rest)
  let ds := t'.takeWhile Char.isDigit
  if ds.isEmpty then none else some (sgn * (digitsToNat ds : Int))

/-- Character class `\w` of the source regex: `[A-Za-z0-9_]`. -/
def wordChar (c : Char) : Bool :=
  c.isAlphanum || c = '_'

/-- Character class `.` of the source regex (no newline). -/
def dotChar (c : Char) : Bool :=
  c ≠ '\n' && c ≠ '\r' && c ≠ '\u2028' && c ≠ '\u2029'

/-- Model of `s.match(pattern)` for the source regex
`/^gid:\/\/shopify\/(\w+)\/(.+)$/` (`src/unnamed/part_003`, line 5).
Returns `some (remoteType, localId)` — capture groups 1 and 2 — when the whole
string matches; the full match (group 0) is then the string itself. -/
def patternMatch (s : String) : Option (String × String) :=
  match stripPrefixChars "gid://shopify/".data s.data with
  | none => none
  | some rest =>
    let ty := rest.takeWhile wordChar
    match rest.dropWhile wordChar with
    | '/' :: localId =>
      if ty ≠ [] && localId ≠ [] && localId.all dotChar
      then some (String.mk ty, String.mk localId)
      else none
    | _ => none

/-- Model of `remoteType.charAt(0).toLowerCase() + remoteType.slice(1)`
(`src/unnamed/part_003`, line 10). -/
def lowerFirst (s : String) : String :=
  match s.data with
  | [] => ""
  | c :: cs => String.mk (c.toLower :: cs)

/-- Embedding of `attachParentId` (`src/unnamed/part_003`, lines 7–15 and
`src/plugin/src/node-builder.ts`, lines 8–16, which are identical).  When
`__parentId` is truthy it must be a string matching the pattern (otherwise the
JS code throws a `TypeError` on `undefined.charAt` or a missing `match`
method); the foreign-key field named after the parent type is set to the full
parent global identifier (regex group 0) and `__parentId` is deleted. -/
def attachParentId (obj : RawRecord) : Except String RawRecord :=
  match getField obj "__parentId" with
  | none => .ok obj
  | some v =>
    if jsTruthy v then
      match v with
      | .str s =>
        match patternMatch s with
        | some (remoteType, _) =>
          let field := lowerFirst remoteType
          let idField := field ++ "Id"
          .ok (removeField (setField obj idField (.str s)) "__parentId")
        | none => .error "TypeError: remoteType is undefined"
      | _ => .error "TypeError: __parentId.match is not a function"
    else .ok obj

/-- External collaborators of the node builder, passed in from the Gatsby API
and plugin options: `createNodeId`, `createContentDigest`, the remote-file
download (`downloadImageAndCreateFileNode`, returning the new file node's id)
and the `downloadImages` option. -/
structure BuildCtx where
  createNodeId : String → String
  createContentDigest : RawRecord → String
  downloadImage : String → String → String
  downloadImages : Bool

/-- Embedding of `processorMap.LineItem` (`src/unnamed/part_003`, lines 49–53):
`lineItem.productId = lineItem.product.id; delete lineItem.product`.  Reading
`.id` off `null`/`undefined` throws a `TypeError` in JS; off another primitive
it reads `undefined`. -/
def lineItemProcessor (node : RawRecord) : Except String RawRecord :=
  match jsGet node "product" with
  | .obj fs => .ok (removeField (setField node "productId" (jsGet fs "id")) "product")
  | .null => .error "TypeError: Cannot read properties of null"
  | .undefined => .error "TypeError: Cannot read properties of undefined"
  | _ => .ok (removeField (setField node "productId" .undefined) "product")

/-- Embedding of `processorMap.ProductImage` (`src/unnamed/part_003`, lines
54–67): when `downloadImages` is set, download `node.originalSrc` and store the
resulting file node id in `node.localFile`.  A non-string URL makes the remote
file download fail. -/
def productImageProcessor (ctx : BuildCtx) (node : RawRecord) : Except String RawRecord :=
  if ctx.downloadImages then
    match jsGet node "originalSrc", jsGet node "id" with
    | .str url, .str nid => .ok (setField node "localFile" (.str (ctx.downloadImage url nid)))
    | _, _ => .error "AssetFetchFailure"
  else .ok node

/-- Embedding of `processorMap.Product` (`src/unnamed/part_003`, lines 68–90):
when `downloadImages` is set and `node.featuredImage` is truthy, download its
`originalSrc` and store the file node id at `featuredImage.localFile`. -/
def productProcessor (ctx : BuildCtx) (node : RawRecord) : Except String RawRecord :=
  if ctx.downloadImages then
    match jsGet node "featuredImage" with
    | .obj fs =>
      (match jsGet fs "originalSrc", jsGet node "id" with
       | .str url, .str nid =>
         .ok (setField node "featuredImage" (.obj (setField fs "localFile" (.str (ctx.downloadImage url nid)))))
       | _, _ => .error "AssetFetchFailure")
    | fi => if jsTruthy fi then .error "AssetFetchFailure" else .ok node
  else .ok node

/-- Embedding of `processorMap[remoteType] || (() => Promise.resolve())`
(`src/unnamed/part_003`, lines 48–91 and 107): dispatch on the remote type with
a no-op default. -/
def runProcessor (ctx : BuildCtx) (remoteType : String) (node : RawRecord) :
    Except String RawRecord :=
  if remoteType = "LineItem" then lineItemProcessor node
  else if remoteType = "ProductImage" then productImageProcessor ctx node
  else if remoteType = "Product" then productProcessor ctx node
  else .ok node

/-- Embedding of `nodeBuilder(...).buildNode` from `src/unnamed/part_003`,
lines 98–124: reject an id that does not match the pattern, extract the remote
type, attach the parent foreign key, then build
`{ ...result, shopifyId: result.id, id: createNodeId(result.id),
internal: { type, contentDigest } }` and run the per-type processor.  Any
non-string `id` value coerces to a string that cannot match the anchored
pattern, so it is rejected the same way. -/
def buildNode (ctx : BuildCtx) (result : RawRecord) : Except String RawRecord :=
  match getField result "id" with
  | some (.str s) =>
    (match patternMatch s with
     | some (remoteType, _) =>
       (match attachParentId result with
        | .error e => .error e
        | .ok result =>
          runProcessor ctx remoteType
            (setField
              (setField (setField result "shopifyId" (.str s)) "id"
                (.str (ctx.createNodeId s)))
              "internal"
              (.obj [("type", .str ("Shopify" ++ remoteType)),
                     ("contentDigest", .str (ctx.createContentDigest result))])))
     | none => .error "Expected an ID in the format gid://shopify/<typename>/<id>")
  | _ => .error "Expected an ID in the format gid://shopify/<typename>/<id>"

/-- Embedding of `nodeBuilder(...).buildNode` from
`src/plugin/src/node-builder.ts`, lines 129–137: delegate to `buildFromId`
(here an abstract parameter, since that function leans on the external
`gatsby-node-helpers` factory) when `obj.id` is truthy, otherwise throw
`Cannot create a node without type information`. -/
def buildNodeTs (buildFromId : RawRecord → Except String RawRecord)
    (obj : RawRecord) : Except String RawRecord :=
  if jsTruthy (jsGet obj "id") then buildFromId obj
  else .error "Cannot create a node without type information"

/-- Projection of a host-stored Gatsby node onto the fields the orchestrator
reads: its Gatsby `id`, `internal.type`, `shopifyId`, and the two foreign keys
the reconciliation code looks at (absent on node types that do not carry
them, matching a JS read of `undefined`). -/
structure StoredNode where
  id : String
  internalType : String
  shopifyId : String
  productId : Option String
  productVariantId : Option String
deriving Repr, DecidableEq

/-- Model of one destroy-type change event from the remote event feed, as read
by `sourceChangedNodes`: `{subject_id: number, subject_type: string}`. -/
structure ChangeEvent where
  subject_id : Int
  subject_type : String
deriving Repr, DecidableEq

/-- Model of `gatsbyApi.getNodesByType(ty)` over a host store modelled as the
list of stored nodes. -/
def getNodesByType (store : List StoredNode) (ty : String) : List StoredNode :=
  store.filter (fun n => n.internalType = ty)

/-- The tracked node-type list `shopifyNodeTypes`
(`src/plugin/src/operations.ts`, lines 259–267). -/
def shopifyNodeTypes : List String :=
  ["ShopifyLineItem", "ShopifyMetafield", "ShopifyOrder", "ShopifyProduct",
   "ShopifyProductImage", "ShopifyProductVariant", "ShopifyProductVariantPricePair"]

/-- One observable action of the incremental-products reconciliation hook, in
execution order: node deletions happen synchronously inside the processor, and
the builds it returns are published by the caller afterwards. -/
inductive ProcEvent where
  | deleteNode (n : StoredNode)
  | buildNode (r : RawRecord)
deriving Repr

/-- String id of a raw record, when its `id` field holds a string. -/
def recordIdStr (r : RawRecord) : Option String :=
  match getField r "id" with
  | some (.str s) => some s
  | _ => none

/-- Predicate for `incrementalProductsProcessor`'s batch filter
(`src/plugin/src/processors/incremental-products.ts`, lines 11–15): the
record's id matches the pattern with remote type `Product`. -/
def isProductRecord (r : RawRecord) : Bool :=
  match recordIdStr r with
  | some s => (patternMatch s).map Prod.fst = some "Product"
  | none => false

/-- The `nodeIds` list of `incrementalProductsProcessor` (lines 17–19): the
node ids of the products appearing in the delta batch. -/
def productNodeIds (createNodeId : String → String) (objects : List RawRecord) : List String :=
  (objects.filter isProductRecord).filterMap (fun p => (recordIdStr p).map createNodeId)

/-- The `variantsToDelete` list of `incrementalProductsProcessor` (lines
27–29): stored `{typePrefix}ShopifyProductVariant` nodes whose `productId` is
among the batch's product node ids. -/
def variantsToDelete (createNodeId : String → String) (typePrefix : String)
    (store : List StoredNode) (objects : List RawRecord) : List StoredNode :=
  (getNodesByType store (typePrefix ++ "ShopifyProductVariant")).filter
    (fun n => match n.productId with
              | some pid => (productNodeIds createNodeId objects).contains pid
              | none => false)

/-- The metafields deleted by `incrementalProductsProcessor` (lines 40–47):
stored `{typePrefix}ShopifyProductVariantMetafield` nodes whose
`productVariantId` is a deleted variant's id. -/
def metafieldsToDelete (createNodeId : String → String) (typePrefix : String)
    (store : List StoredNode) (objects : List RawRecord) : List StoredNode :=
  (getNodesByType store (typePrefix ++ "ShopifyProductVariantMetafield")).filter
    (fun m => match m.productVariantId with
              | some vid => ((variantsToDelete createNodeId typePrefix store objects).map (·.id)).contains vid
              | none => false)

/-- Embedding of `incrementalProductsProcessor`
(`src/plugin/src/processors/incremental-products.ts`, lines 4–50), as the
ordered list of its observable actions.  `createNodeId` stands for the
`createNodeId(product.id, gatsbyApi, pluginOptions)` helper imported from the
node builder.  The JS code first deletes every stored
`{typePrefix}ShopifyProductVariant` whose `productId` is among the node ids of
the products in the batch, then every stored
`{typePrefix}ShopifyProductVariantMetafield` whose `productVariantId` is a
deleted variant's id, and only then returns the batch's `buildNode` promises
(published by the caller).  A record whose `id` is not a string makes the JS
filter throw before any action, modelled as `.error`. -/
def incrementalProductsProcessor (createNodeId : String → String) (typePrefix : String)
    (store : List StoredNode) (objects : List RawRecord) :
    Except String (List ProcEvent) :=
  if objects.all (fun o => (recordIdStr o).isSome) then
    .ok ((variantsToDelete createNodeId typePrefix store objects).map ProcEvent.deleteNode
          ++ (metafieldsToDelete createNodeId typePrefix store objects).map ProcEvent.deleteNode
          ++ objects.map ProcEvent.buildNode)
  else .error "TypeError: Cannot read properties of undefined"

/-- Embedding of the cascade-delete pass of `sourceChangedNodes`
(`src/plugin/src/operations.ts`, lines 303–324): for each tracked type and
each stored node of that type, the node is deleted when some destroy event
satisfies `e.subject_id === parseInt(node.shopifyId, 10)` and
`node.internal.type === "Shopify" + e.subject_type`; the pass is skipped
entirely when the event list is empty.  Returns the list of deleted nodes. -/
def sourceChangedNodesDeletes (store : List StoredNode) (events : List ChangeEvent) :
    List StoredNode :=
  if events.isEmpty then []
  else
    shopifyNodeTypes.flatMap (fun ty =>
      (getNodesByType store ty).filter (fun n =>
        events.any (fun e =>
          jsParseInt n.shopifyId = some e.subject_id
            && n.internalType = "Shopify" ++ e.subject_type)))

/-- Model of one `currentBulkOperation` poll response; `none` at a poll index
models a falsy `currentBulkOperation`. -/
structure CurrentBulkOperation where
  id : String
  status : String
deriving Repr, DecidableEq

/-- The terminal status list `finishedStatuses`
(`src/plugin/src/operations.ts`, line 30). -/
def finishedStatuses : List String :=
  ["COMPLETED", "FAILED", "CANCELED"]

/-- Drain-phase poll `n` lets `finishLastOperation` return: the current
operation is absent, its `id` is falsy, or its status is terminal. -/
def currentDone (resp : Option CurrentBulkOperation) : Bool :=
  match resp with
  | none => true
  | some cur => cur.id = "" || finishedStatuses.contains cur.status

/-- Embedding of `finishLastOperation` (`src/plugin/src/operations.ts`, lines
48–66): poll the current bulk operation; return if it is absent, has a falsy
id, or has a terminal status; otherwise wait 1000 ms and recurse.  `polls n`
is the response of the `n`-th poll; the recursion carries the next poll index
and an explicit fuel, `some n` meaning the function returned after observing
poll `n` and `none` that it is still waiting after `fuel` polls. -/
def finishLastOperation (polls : Nat → Option CurrentBulkOperation) :
    Nat → Nat → Option Nat
  | _, 0 => none
  | start, fuel + 1 =>
    if currentDone (polls start) then some start
    else finishLastOperation polls (start + 1) fuel

/-- Model of one `node` object of an `OPERATION_BY_ID` poll response, the
fields `completedOperation` reads. -/
structure BulkOperationNode where
  status : String
  objectCount : String
  url : String
deriving Repr, DecidableEq

/-- Embedding of `completedOperation` (`src/plugin/src/operations.ts`, lines
74–105): poll the operation by id; throw the whole response when status is
`FAILED`, return it when status is `COMPLETED`, otherwise wait `interval` ms
and recurse.  `polls n` is the `node` of the `n`-th poll response; the result
pairs the index of the final poll with `Except.error` (thrown response) or
`Except.ok` (returned response); `none` means the loop is still polling after
`fuel` polls. -/
def completedOperation (polls : Nat → BulkOperationNode) :
    Nat → Nat → Option (Nat × Except BulkOperationNode BulkOperationNode)
  | _, 0 => none
  | start, fuel + 1 =>
    let op := polls start
    if op.status = "FAILED" then some (start, .error op)
    else if op.status = "COMPLETED" then some (start, .ok op)
    else completedOperation polls (start + 1) fuel

/-- One observable step of `sourceFromOperation`, in order: the bulk-operation
submission (`op()`), the fetch of the result URL, and each `createNode`
publication. -/
inductive PipeEvent where
  | submitOp
  | fetchResults (url : String)
  | createNode (n : RawRecord)
deriving Repr

/-- Final state of one `sourceFromOperation` run: normal return, `reporter.panic`
on submission user errors, a thrown `completedOperation` response, an error
from a node build, or still waiting inside a polling loop after the given
fuel. -/
inductive PipeOutcome where
  | success
  | panicked
  | opFailed (resp : BulkOperationNode)
  | buildFailed
  | polling
deriving Repr

/-- Environment of one `sourceFromOperation` run: the drain-phase and
completion-phase poll responses with their fuels, the submission response's
`userErrors`, the parsed JSONL records served at each result URL, and the
node builder. -/
structure PipelineEnv where
  currentPolls : Nat → Option CurrentBulkOperation
  drainFuel : Nat
  userErrors : List String
  opPolls : Nat → BulkOperationNode
  opFuel : Nat
  results : String → List RawRecord
  build : RawRecord → Except String RawRecord

/-- Embedding of `makeSourceFromOperation(...)` / `sourceFromOperation`
(`src/plugin/src/operations.ts`, lines 151–233), as the ordered list of its
observable steps and its outcome: drain via `finishLastOperation`, submit the
operation, panic on user errors, await `completedOperation`, return early with
no fetch when `parseInt(objectCount, 10) === 0`, otherwise fetch the result
URL, build every parsed record and publish each successfully built node with
`actions.createNode`. -/
def sourceFromOperation (env : PipelineEnv) : List PipeEvent × PipeOutcome :=
  match finishLastOperation env.currentPolls 0 env.drainFuel with
  | none => ([], .polling)
  | some _ =>
    if env.userErrors.isEmpty then
      match completedOperation env.opPolls 0 env.opFuel with
      | none => ([.submitOp], .polling)
      | some (_, .error resp) => ([.submitOp], .opFailed resp)
      | some (_, .ok resp) =>
        if jsParseInt resp.objectCount = some 0 then
          ([.submitOp], .success)
        else
          let recs := env.results resp.url
          let built := recs.map env.build
          let published := built.filterMap (fun b => b.toOption)
          ([.submitOp, .fetchResults resp.url] ++ published.map PipeEvent.createNode,
           if built.all (fun b => b.toOption.isSome) then .success else .buildFailed)
    else ([.submitOp], .panicked)

/-- Embedding of `sourceNodes` (`src/plugin/src/operations.ts`, lines
327–339) as a state transition on the persisted `LAST_BUILD_TIME` cache
entry: read the timestamp, run `sourceChangedNodes` when it is truthy and
`sourceAllNodes` otherwise (the two passes abstracted as `Except` results),
and persist `Date.now()` only when the chosen pass returns without error —
a thrown error propagates before the `cache.set` call. -/
def sourceNodes (fullPass deltaPass : Except String Unit) (now : Nat)
    (lastBuildTime : Option Nat) : Option Nat × Except String Unit :=
  let isDelta : Bool := match lastBuildTime with
                        | some t => t != 0
                        | none => false
  let pass := if isDelta then deltaPass else fullPass
  match pass with
  | .error e => (lastBuildTime, .error e)
  | .ok _ => (some now, .ok ())

/-! Basic lemmas about the association-list field operations. -/

theorem getField_setField_self (r : RawRecord) (k : String) (v : JValue) :
    getField (setField r k v) k = some v := by
  induction r with
  | nil => simp [setField, getField]
  | cons p rest ih =>
    obtain ⟨k', v'⟩ := p
    by_cases h : k' = k <;> simp [setField, getField, h, ih]

theorem getField_setField_ne (r : RawRecord) (k : String) (v : JValue) (k' : String)
    (h : k' ≠ k) : getField (setField r k v) k' = getField r k' := by
  induction r with
  | nil => simp [setField, getField, Ne.symm h]
  | cons p rest ih =>
    obtain ⟨k₁, v₁⟩ := p
    by_cases h1 : k₁ = k
    · subst h1
      simp [setField, getField, Ne.symm h]
    · by_cases h2 : k₁ = k' <;> simp [setField, getField, h, h1, h2, ih]

theorem getField_removeField_self (r : RawRecord) (k : String) :
    getField (removeField r k) k = none := by
  induction r with
  | nil => simp [removeField, getField]
  | cons p rest ih =>
    obtain ⟨k₁, v₁⟩ := p
    by_cases h1 : k₁ = k <;> simp [removeField, getField, h1, ih]

theorem getField_removeField_ne (r : RawRecord) (k k' : String) (h : k' ≠ k) :
    getField (removeField r k) k' = getField r k' := by
  induction r with
  | nil => simp [removeField, getField]
  | cons p rest ih =>
    obtain ⟨k₁, v₁⟩ := p
    by_cases h1 : k₁ = k
    · subst h1
      simp [removeField, getField, Ne.symm h, ih]
    · by_cases h2 : k₁ = k' <;> simp [removeField, getField, h, h1, h2, ih]

/-- Every per-type processor only writes the fields `productId`, `product`,
`localFile` and `featuredImage`; all other fields survive unchanged. -/
theorem runProcessor_getField (ctx : BuildCtx) (t : String) (node node' : RawRecord)
    (k : String) (h : runProcessor ctx t node = .ok node')
    (h1 : k ≠ "productId") (h2 : k ≠ "product") (h3 : k ≠ "localFile")
    (h4 : k ≠ "featuredImage") :
    getField node' k = getField node k := by
  unfold runProcessor at h
  split_ifs at h
  · unfold lineItemProcessor at h
    split at h
    all_goals first
      | exact Except.noConfusion h
      | (injection h with h;
         rw [← h, getField_removeField_ne _ _ _ h2, getField_setField_ne _ _ _ _ h1])
  · unfold productImageProcessor at h
    split_ifs at h
    · split at h
      all_goals first
        | exact Except.noConfusion h
        | (injection h with h; rw [← h, getField_setField_ne _ _ _ _ h3])
    · injection h with h
      rw [← h]
  · unfold productProcessor at h
    split_ifs at h
    · split at h
      · split at h
        all_goals first
          | exact Except.noConfusion h
          | (injection h with h; rw [← h, getField_setField_ne _ _ _ _ h4])
      · split at h
        · exact Except.noConfusion h
        · injection h with h
          rw [← h]
    · injection h with h
      rw [← h]
  · injection h with h
    rw [← h]

/-- Claim C1 (amended).  For every raw record whose global identifier matches
the pattern `gid://shopify/<Type>/<id>`, the node returned by `buildNode` has
`shopifyId` equal to the full global identifier (not the extracted local id
segment), `internal.type` equal to `"Shopify" ++ RemoteType`, and `id` equal
to the deterministic local identity `createNodeId` derives from the global
identifier. -/
theorem buildNode_identity (ctx : BuildCtx) (r : RawRecord) (s t lid : String)
    (n : RawRecord)
    (hid : getField r "id" = some (.str s))
    (hm : patternMatch s = some (t, lid))
    (hok : buildNode ctx r = .ok n) :
    getField n "shopifyId" = some (.str s)
    ∧ getField n "id" = some (.str (ctx.createNodeId s))
    ∧ ∃ d, getField n "internal"
        = some (.obj [("type", .str ("Shopify" ++ t)), ("contentDigest", .str d)]) := by
  unfold buildNode at hok
  split at hok
  case h_2 => exact Except.noConfusion hok
  case h_1 s' heq =>
    rw [hid] at heq
    injection heq with heq
    injection heq with heq
    subst heq
    split at hok
    case h_2 => exact Except.noConfusion hok
    case h_1 t' lid' heq2 =>
      rw [hm] at heq2
      injection heq2 with heq2
      injection heq2 with h1 h2
      subst h1
      subst h2
      split at hok
      case h_1 => exact Except.noConfusion hok
      case h_2 r' hA =>
        refine ⟨?_, ?_, ctx.createContentDigest r', ?_⟩
        · rw [runProcessor_getField ctx t _ n "shopifyId" hok (by decide) (by decide)
            (by decide) (by decide)]
          rw [getField_setField_ne _ _ _ _ (by decide),
            getField_setField_ne _ _ _ _ (by decide), getField_setField_self]
        · rw [runProcessor_getField ctx t _ n "id" hok (by decide) (by decide)
            (by decide) (by decide)]
          rw [getField_setField_ne _ _ _ _ (by decide), getField_setField_self]
        · rw [runProcessor_getField ctx t _ n "internal" hok (by decide) (by decide)
            (by decide) (by decide)]
          rw [getField_setField_self]

/-- Concrete collaborators for evaluating the node builder. -/
def cexCtx : BuildCtx :=
  { createNodeId := fun s => "node-" ++ s
    createContentDigest := fun _ => "digest"
    downloadImage := fun _ _ => "file"
    downloadImages := false }

/-- A concrete raw record whose global identifier matches the pattern. -/
def cexRecord : RawRecord :=
  [("id", JValue.str "gid://shopify/Product/123")]

/-- The node `buildNode` produces for `cexRecord` under `cexCtx`. -/
def cexNode : RawRecord :=
  [("id", JValue.str "node-gid://shopify/Product/123"),
   ("shopifyId", JValue.str "gid://shopify/Product/123"),
   ("internal", JValue.obj [("type", JValue.str "ShopifyProduct"),
                            ("contentDigest", JValue.str "digest")])]

/-- Claim C1, counterexample.  For the record with global identifier
`gid://shopify/Product/123` (extracted local id `123`), the node built by
`buildNode` has `shopifyId` equal to the full global identifier, not to the
extracted local id segment `123` as the claim states. -/
theorem buildNode_shopifyId_counterexample :
    buildNode cexCtx cexRecord = .ok cexNode
    ∧ patternMatch "gid://shopify/Product/123" = some ("Product", "123")
    ∧ getField cexNode "shopifyId" = some (JValue.str "gid://shopify/Product/123")
    ∧ getField cexNode "shopifyId" ≠ some (JValue.str "123") := by
  refine ⟨rfl, rfl, rfl, ?_⟩
  rw [show getField cexNode "shopifyId" = some (JValue.str "gid://shopify/Product/123")
    from rfl]
  intro h
  injection h with h
  injection h with h
  exact absurd h (by decide)

/-- Claim C1, witness for `buildNode_identity` at the concrete record
`cexRecord`. -/
theorem buildNode_identity_witness :
    getField cexNode "shopifyId" = some (.str "gid://shopify/Product/123")
    ∧ getField cexNode "id" = some (.str (cexCtx.createNodeId "gid://shopify/Product/123"))
    ∧ ∃ d, getField cexNode "internal"
        = some (.obj [("type", .str ("Shopify" ++ "Product")), ("contentDigest", .str d)]) :=
  buildNode_identity cexCtx cexRecord "gid://shopify/Product/123" "Product" "123"
    cexNode rfl rfl rfl

/-- A string matching the global-identifier pattern is nonempty (and hence
truthy in JavaScript). -/
theorem patternMatch_ne_empty (s : String) (t lid : String)
    (h : patternMatch s = some (t, lid)) : s ≠ "" := by
  intro hs
  subst hs
  exact Option.noConfusion h

/-- Claim C4 (amended).  For every raw record whose `__parentId` matches the
global-identifier pattern with parent type `t`, provided the derived
foreign-key field name `lowerFirst t ++ "Id"` is not `__parentId` itself,
`attachParentId` sets that field to the parent's full global identifier and
removes `__parentId`. -/
theorem attachParentId_spec (obj : RawRecord) (s t lid : String)
    (hp : getField obj "__parentId" = some (.str s))
    (hm : patternMatch s = some (t, lid))
    (hfield : lowerFirst t ++ "Id" ≠ "__parentId") :
    ∃ obj', attachParentId obj = .ok obj'
      ∧ getField obj' (lowerFirst t ++ "Id") = some (.str s)
      ∧ getField obj' "__parentId" = none := by
  refine ⟨removeField (setField obj (lowerFirst t ++ "Id") (.str s)) "__parentId",
    ?_, ?_, ?_⟩
  · have hs : s ≠ "" := patternMatch_ne_empty s t lid hm
    unfold attachParentId
    rw [hp]
    simp [jsTruthy, hs, hm]
  · rw [getField_removeField_ne _ _ _ hfield, getField_setField_self]
  · exact getField_removeField_self _ _

/-- A concrete record whose `__parentId` matches the pattern with the parent
type `__parent`, for which the derived foreign-key field name collides with
`__parentId` itself. -/
def dunderObj : RawRecord :=
  [("id", JValue.str "gid://shopify/Product/9"),
   ("__parentId", JValue.str "gid://shopify/__parent/5")]

/-- Claim C4, counterexample.  For a record whose `__parentId` matches the
pattern with parent type `__parent`, the derived foreign-key field name is
`__parentId` itself, so the `delete obj.__parentId` step removes the field
that was just written: the resulting record carries neither `__parentId` nor
the claimed foreign-key field, contradicting the claim's requirement that the
field named `lowerCamel(ParentType) ++ "Id"` holds the parent's global
identifier. -/
theorem attachParentId_dunderParent_counterexample :
    patternMatch "gid://shopify/__parent/5" = some ("__parent", "5")
    ∧ lowerFirst "__parent" ++ "Id" = "__parentId"
    ∧ attachParentId dunderObj = .ok [("id", JValue.str "gid://shopify/Product/9")]
    ∧ getField [("id", JValue.str "gid://shopify/Product/9")]
        (lowerFirst "__parent" ++ "Id") = none :=
  ⟨rfl, rfl, rfl, rfl⟩

/-- Claim C4, witness for `attachParentId_spec` at a concrete record with a
`Product` parent. -/
theorem attachParentId_spec_witness :
    ∃ obj', attachParentId [("__parentId", JValue.str "gid://shopify/Product/77")] = .ok obj'
      ∧ getField obj' (lowerFirst "Product" ++ "Id") = some (.str "gid://shopify/Product/77")
      ∧ getField obj' "__parentId" = none :=
  attachParentId_spec [("__parentId", JValue.str "gid://shopify/Product/77")]
    "gid://shopify/Product/77" "Product" "77" rfl rfl (by decide)

/-- Claim C10.  For every raw record that lacks an `id` field, the node
builder of `src/plugin/src/node-builder.ts` fails with
`Cannot create a node without type information` (for any behaviour of the
delegated `buildFromId`), so no node is produced for that record. -/
theorem buildNodeTs_missing_id (buildFromId : RawRecord → Except String RawRecord)
    (obj : RawRecord) (h : getField obj "id" = none) :
    buildNodeTs buildFromId obj = .error "Cannot create a node without type information" := by
  unfold buildNodeTs jsGet
  rw [h]
  rfl

/-- Claim C10, witness: a concrete record with no `id` field. -/
theorem buildNodeTs_missing_id_witness :
    buildNodeTs (fun r => .ok r) [("title", JValue.str "T")]
      = .error "Cannot create a node without type information" :=
  buildNodeTs_missing_id (fun r => .ok r) [("title", JValue.str "T")] rfl

/-- Membership in a `getNodesByType` query. -/
theorem mem_getNodesByType (store : List StoredNode) (ty : String) (n : StoredNode) :
    n ∈ getNodesByType store ty ↔ n ∈ store ∧ n.internalType = ty := by
  unfold getNodesByType
  rw [List.mem_filter]
  simp

/-- Membership in the batch's product node-id list. -/
theorem mem_productNodeIds (cni : String → String) (objects : List RawRecord) (x : String) :
    x ∈ productNodeIds cni objects ↔
      ∃ p, p ∈ objects ∧ isProductRecord p = true
        ∧ ∃ ps, recordIdStr p = some ps ∧ cni ps = x := by
  unfold productNodeIds
  rw [List.mem_filterMap]
  constructor
  · rintro ⟨p, hp, hps⟩
    rw [List.mem_filter] at hp
    cases hid : recordIdStr p with
    | none => rw [hid] at hps; simp at hps
    | some ps =>
      rw [hid] at hps
      simp only [Option.map] at hps
      injection hps with hps
      exact ⟨p, hp.1, hp.2, ps, hid, hps⟩
  · rintro ⟨p, hpo, hppr, ps, hid, hcni⟩
    exact ⟨p, List.mem_filter.mpr ⟨hpo, hppr⟩, by rw [hid]; simp [Option.map, hcni]⟩

/-- Membership in the hook's variant-deletion list. -/
theorem mem_variantsToDelete (cni : String → String) (tp : String)
    (store : List StoredNode) (objects : List RawRecord) (v : StoredNode) :
    v ∈ variantsToDelete cni tp store objects ↔
      v ∈ store ∧ v.internalType = tp ++ "ShopifyProductVariant"
        ∧ ∃ pid, v.productId = some pid ∧ pid ∈ productNodeIds cni objects := by
  unfold variantsToDelete
  rw [List.mem_filter, mem_getNodesByType]
  constructor
  · rintro ⟨⟨h1, h2⟩, h3⟩
    refine ⟨h1, h2, ?_⟩
    cases hpid : v.productId with
    | none => rw [hpid] at h3; exact absurd h3 (by simp)
    | some pid =>
      rw [hpid] at h3
      exact ⟨pid, rfl, List.elem_iff.mp h3⟩
  · rintro ⟨h1, h2, pid, hpid, hmem⟩
    refine ⟨⟨h1, h2⟩, ?_⟩
    rw [hpid]
    exact List.elem_iff.mpr hmem

/-- Membership in the hook's metafield-deletion list. -/
theorem mem_metafieldsToDelete (cni : String → String) (tp : String)
    (store : List StoredNode) (objects : List RawRecord) (m : StoredNode) :
    m ∈ metafieldsToDelete cni tp store objects ↔
      m ∈ store ∧ m.internalType = tp ++ "ShopifyProductVariantMetafield"
        ∧ ∃ vid, m.productVariantId = some vid
            ∧ vid ∈ (variantsToDelete cni tp store objects).map (·.id) := by
  unfold metafieldsToDelete
  rw [List.mem_filter, mem_getNodesByType]
  constructor
  · rintro ⟨⟨h1, h2⟩, h3⟩
    refine ⟨h1, h2, ?_⟩
    cases hvid : m.productVariantId with
    | none => rw [hvid] at h3; exact absurd h3 (by simp)
    | some vid =>
      rw [hvid] at h3
      exact ⟨vid, rfl, List.elem_iff.mp h3⟩
  · rintro ⟨h1, h2, vid, hvid, hmem⟩
    refine ⟨⟨h1, h2⟩, ?_⟩
    rw [hvid]
    exact List.elem_iff.mpr hmem

/-- Claim C2.  During an incremental products pass, the reconciliation hook's
observable actions are exactly: first delete every previously stored
`ProductVariant` node whose `productId` foreign key matches (via the
`createNodeId` identity of) a product appearing in the delta batch, then
delete every stored variant-metafield node whose `productVariantId` equals a
deleted variant's id, and only then hand the batch's records to the node
builder for publication — every deletion precedes every publication. -/
theorem incrementalProductsProcessor_spec (cni : String → String) (tp : String)
    (store : List StoredNode) (objects : List RawRecord)
    (h : objects.all (fun o => (recordIdStr o).isSome) = true) :
    incrementalProductsProcessor cni tp store objects
      = .ok ((variantsToDelete cni tp store objects
              ++ metafieldsToDelete cni tp store objects).map ProcEvent.deleteNode
             ++ objects.map ProcEvent.buildNode)
    ∧ (∀ v, v ∈ store → v.internalType = tp ++ "ShopifyProductVariant" →
        (v ∈ variantsToDelete cni tp store objects ↔
          ∃ p, p ∈ objects ∧ isProductRecord p = true
            ∧ ∃ ps, recordIdStr p = some ps ∧ v.productId = some (cni ps)))
    ∧ (∀ m, m ∈ store → m.internalType = tp ++ "ShopifyProductVariantMetafield" →
        (m ∈ metafieldsToDelete cni tp store objects ↔
          ∃ v, v ∈ variantsToDelete cni tp store objects
            ∧ m.productVariantId = some v.id)) := by
  refine ⟨?_, ?_, ?_⟩
  · unfold incrementalProductsProcessor
    rw [if_pos h]
    simp [List.map_append, List.append_assoc]
  · intro v hv htype
    rw [mem_variantsToDelete]
    constructor
    · rintro ⟨-, -, pid, hpid, hmem⟩
      rw [mem_productNodeIds] at hmem
      obtain ⟨p, hpo, hppr, ps, hid, hcni⟩ := hmem
      exact ⟨p, hpo, hppr, ps, hid, by rw [hpid, hcni]⟩
    · rintro ⟨p, hpo, hppr, ps, hid, hpid⟩
      exact ⟨hv, htype, cni ps, hpid,
        mem_productNodeIds cni objects (cni ps) |>.mpr ⟨p, hpo, hppr, ps, hid, rfl⟩⟩
  · intro m hm htype
    rw [mem_metafieldsToDelete]
    constructor
    · rintro ⟨-, -, vid, hvid, hmem⟩
      rw [List.mem_map] at hmem
      obtain ⟨v, hvmem, hvid2⟩ := hmem
      exact ⟨v, hvmem, by rw [hvid, hvid2]⟩
    · rintro ⟨v, hvmem, hvid⟩
      exact ⟨hm, htype, v.id, hvid, List.mem_map.mpr ⟨v, hvmem, rfl⟩⟩

/-- Concrete `createNodeId` collaborator for the incremental-products witness. -/
def w2cni : String → String := fun s => "node-" ++ s

/-- A delta batch containing one product record. -/
def w2objects : List RawRecord := [[("id", JValue.str "gid://shopify/Product/1")]]

/-- A stored variant whose `productId` matches the batch product, and a stored
metafield attached to that variant. -/
def w2store : List StoredNode :=
  [{ id := "v1", internalType := "ShopifyProductVariant",
     shopifyId := "gid://shopify/ProductVariant/11",
     productId := some "node-gid://shopify/Product/1", productVariantId := none },
   { id := "m1", internalType := "ShopifyProductVariantMetafield",
     shopifyId := "gid://shopify/Metafield/21",
     productId := none, productVariantId := some "v1" }]

/-- Claim C2, witness for `incrementalProductsProcessor_spec` at the concrete
delta batch: the stored variant and its metafield are deleted, in that order,
before the batch's single record is handed to the builder. -/
theorem incrementalProductsProcessor_spec_witness :
    incrementalProductsProcessor w2cni "" w2store w2objects
      = .ok [ProcEvent.deleteNode (w2store.get ⟨0, by decide⟩),
             ProcEvent.deleteNode (w2store.get ⟨1, by decide⟩),
             ProcEvent.buildNode [("id", JValue.str "gid://shopify/Product/1")]] :=
  (incrementalProductsProcessor_spec w2cni "" w2store w2objects (by decide)).1

/-- Membership characterization of the cascade-delete pass. -/
theorem mem_sourceChangedNodesDeletes (store : List StoredNode)
    (events : List ChangeEvent) (n : StoredNode) :
    n ∈ sourceChangedNodesDeletes store events ↔
      n ∈ store ∧ n.internalType ∈ shopifyNodeTypes
        ∧ ∃ e, e ∈ events ∧ jsParseInt n.shopifyId = some e.subject_id
            ∧ n.internalType = "Shopify" ++ e.subject_type := by
  unfold sourceChangedNodesDeletes
  split
  case isTrue hempty =>
    rw [List.isEmpty_iff] at hempty
    subst hempty
    simp
  case isFalse hne =>
    rw [List.mem_flatMap]
    constructor
    · rintro ⟨ty, hty, hmem⟩
      rw [List.mem_filter, mem_getNodesByType] at hmem
      obtain ⟨⟨hn, htype⟩, hcond⟩ := hmem
      rw [List.any_eq_true] at hcond
      obtain ⟨e, he, hcond⟩ := hcond
      rw [Bool.and_eq_true, decide_eq_true_eq, decide_eq_true_eq] at hcond
      exact ⟨hn, htype ▸ hty, e, he, hcond.1, hcond.2⟩
    · rintro ⟨hn, htypes, e, he, hpi, htype⟩
      exact ⟨n.internalType, htypes,
        List.mem_filter.mpr ⟨(mem_getNodesByType _ _ _).mpr ⟨hn, rfl⟩,
          List.any_eq_true.mpr ⟨e, he, by simp [hpi, htype]⟩⟩⟩

/-- Claim C3.  In the cascade-delete pass, a stored node of a tracked type is
deleted exactly when some destroy change event has `subject_id` equal to the
node's `shopifyId` parsed as a base-10 integer and `subject_type` such that
the node's `internal.type` equals `"Shopify" ++ subject_type`; a stored node
matching no event's type (for instance one sharing a `shopifyId` but with a
different `internal.type`) is left untouched. -/
theorem sourceChangedNodes_cascadeDelete_spec (store : List StoredNode)
    (events : List ChangeEvent) :
    (∀ n, n ∈ sourceChangedNodesDeletes store events ↔
      n ∈ store ∧ n.internalType ∈ shopifyNodeTypes
        ∧ ∃ e, e ∈ events ∧ jsParseInt n.shopifyId = some e.subject_id
            ∧ n.internalType = "Shopify" ++ e.subject_type)
    ∧ (∀ n, n ∈ store →
        (∀ e, e ∈ events → n.internalType ≠ "Shopify" ++ e.subject_type) →
        n ∉ sourceChangedNodesDeletes store events) := by
  refine ⟨mem_sourceChangedNodesDeletes store events, ?_⟩
  intro n _ hne hmem
  obtain ⟨-, -, e, he, -, htype⟩ :=
    (mem_sourceChangedNodesDeletes store events n).mp hmem
  exact hne e he htype

/-- A store with two nodes sharing `shopifyId = "42"` under different types,
and one destroy event for the product. -/
def w3store : List StoredNode :=
  [{ id := "a", internalType := "ShopifyProduct", shopifyId := "42",
     productId := none, productVariantId := none },
   { id := "b", internalType := "ShopifyOrder", shopifyId := "42",
     productId := none, productVariantId := none }]

/-- The destroy event list for the cascade-delete witness. -/
def w3events : List ChangeEvent :=
  [{ subject_id := 42, subject_type := "Product" }]

/-- Claim C3, witness for `sourceChangedNodes_cascadeDelete_spec`: the stored
`ShopifyProduct` node with `shopifyId = "42"` is deleted, while the
`ShopifyOrder` node with the same `shopifyId` is untouched. -/
theorem sourceChangedNodes_cascadeDelete_spec_witness :
    (w3store.get ⟨0, by decide⟩) ∈ sourceChangedNodesDeletes w3store w3events
    ∧ (w3store.get ⟨1, by decide⟩) ∉ sourceChangedNodesDeletes w3store w3events :=
  ⟨((sourceChangedNodes_cascadeDelete_spec w3store w3events).1 _).mpr
      ⟨by decide, by decide,
        { subject_id := 42, subject_type := "Product" }, by decide, by decide, by decide⟩,
    (sourceChangedNodes_cascadeDelete_spec w3store w3events).2 _ (by decide)
      (by intro e he; fin_cases he; decide)⟩

/-- Full characterization of `completedOperation`: it yields a result at poll
`n` exactly when `n` is the first poll index (within fuel) whose status is
`FAILED` or `COMPLETED`, throwing the response on `FAILED` and returning it on
`COMPLETED`. -/
theorem completedOperation_eq_some_iff (polls : Nat → BulkOperationNode) :
    ∀ (fuel start n : Nat) (res : Except BulkOperationNode BulkOperationNode),
      completedOperation polls start fuel = some (n, res) ↔
        (start ≤ n ∧ n < start + fuel
          ∧ (∀ m, start ≤ m → m < n →
              (polls m).status ≠ "FAILED" ∧ (polls m).status ≠ "COMPLETED")
          ∧ (((polls n).status = "FAILED" ∧ res = .error (polls n))
             ∨ ((polls n).status ≠ "FAILED" ∧ (polls n).status = "COMPLETED"
                ∧ res = .ok (polls n)))) := by
  intro fuel
  induction fuel with
  | zero =>
    intro start n res
    constructor
    · intro h
      exact Option.noConfusion h
    · rintro ⟨h1, h2, -, -⟩
      omega
  | succ fuel ih =>
    intro start n res
    by_cases hf : (polls start).status = "FAILED"
    · have heq : completedOperation polls start (fuel + 1)
          = some (start, .error (polls start)) := by
        simp [completedOperation, hf]
      rw [heq]
      constructor
      · intro h
        injection h with h
        injection h with h1 h2
        subst h1
        subst h2
        exact ⟨le_refl _, by omega, fun m hm1 hm2 => absurd (by omega : start < start)
          (lt_irrefl start), Or.inl ⟨hf, rfl⟩⟩
      · rintro ⟨h1, h2, hmid, hlast⟩
        have hn : n = start := by
          by_contra hne
          exact (hmid start (le_refl _) (by omega)).1 hf
        subst hn
        rcases hlast with ⟨-, hres⟩ | ⟨hnf, -, -⟩
        · rw [hres]
        · exact absurd hf hnf
    · by_cases hc : (polls start).status = "COMPLETED"
      · have heq : completedOperation polls start (fuel + 1)
            = some (start, .ok (polls start)) := by
          simp [completedOperation, hf, hc]
        rw [heq]
        constructor
        · intro h
          injection h with h
          injection h with h1 h2
          subst h1
          subst h2
          exact ⟨le_refl _, by omega, fun m hm1 hm2 => absurd (by omega : start < start)
            (lt_irrefl start), Or.inr ⟨hf, hc, rfl⟩⟩
        · rintro ⟨h1, h2, hmid, hlast⟩
          have hn : n = start := by
            by_contra hne
            exact (hmid start (le_refl _) (by omega)).2 hc
          subst hn
          rcases hlast with ⟨hfe, -⟩ | ⟨-, -, hres⟩
          · exact absurd hfe hf
          · rw [hres]
      · have heq : completedOperation polls start (fuel + 1)
            = completedOperation polls (start + 1) fuel := by
          simp [completedOperation, hf, hc]
        rw [heq, ih (start + 1) n res]
        constructor
        · rintro ⟨h1, h2, hmid, hlast⟩
          refine ⟨by omega, by omega, ?_, hlast⟩
          intro m hm1 hm2
          rcases Nat.eq_or_lt_of_le hm1 with hm | hm
          · subst hm
            exact ⟨hf, hc⟩
          · exact hmid m (by omega) hm2
        · rintro ⟨h1, h2, hmid, hlast⟩
          have hns : n ≠ start := by
            intro he
            subst he
            rcases hlast with ⟨hfe, -⟩ | ⟨-, hce, -⟩
            · exact hf hfe
            · exact hc hce
          exact ⟨by omega, by omega, fun m hm1 hm2 => hmid m (by omega) hm2, hlast⟩

/-- Full characterization of `finishLastOperation`: it returns after poll `n`
exactly when `n` is the first poll (within fuel) at which the current
operation is absent, has a falsy id, or has a terminal status. -/
theorem finishLastOperation_eq_some_iff (polls : Nat → Option CurrentBulkOperation) :
    ∀ (fuel start n : Nat),
      finishLastOperation polls start fuel = some n ↔
        (start ≤ n ∧ n < start + fuel ∧ currentDone (polls n) = true
          ∧ ∀ m, start ≤ m → m < n → currentDone (polls m) = false) := by
  intro fuel
  induction fuel with
  | zero =>
    intro start n
    constructor
    · intro h
      exact Option.noConfusion h
    · rintro ⟨h1, h2, -, -⟩
      omega
  | succ fuel ih =>
    intro start n
    by_cases hd : currentDone (polls start) = true
    · have heq : finishLastOperation polls start (fuel + 1) = some start := by
        simp [finishLastOperation, hd]
      rw [heq]
      constructor
      · intro h
        injection h with h
        subst h
        exact ⟨le_refl _, by omega, hd, fun m hm1 hm2 => absurd (by omega : start < start)
          (lt_irrefl start)⟩
      · rintro ⟨h1, h2, hdone, hmid⟩
        have hn : n = start := by
          by_contra hne
          rw [hmid start (le_refl _) (by omega)] at hd
          exact Bool.noConfusion hd
        rw [hn]
    · have heq : finishLastOperation polls start (fuel + 1)
          = finishLastOperation polls (start + 1) fuel := by
        simp [finishLastOperation, hd]
      rw [heq, ih (start + 1) n]
      constructor
      · rintro ⟨h1, h2, hdone, hmid⟩
        refine ⟨by omega, by omega, hdone, ?_⟩
        intro m hm1 hm2
        rcases Nat.eq_or_lt_of_le hm1 with hm | hm
        · subst hm
          exact Bool.not_eq_true _ ▸ hd
        · exact hmid m (by omega) hm2
      · rintro ⟨h1, h2, hdone, hmid⟩
        have hns : n ≠ start := by
          intro he
          rw [he] at hdone
          exact hd hdone
        exact ⟨by omega, by omega, hdone, fun m hm1 hm2 => hmid m (by omega) hm2⟩

/-- Claim C5.  `completedOperation` fails, throwing the last poll response,
exactly when the polled status first equals `FAILED`; it returns the poll
response (carrying `objectCount` and `url`) exactly when the status first
equals `COMPLETED`; under any other status it polls again after the interval;
and when it fails, the pipeline publishes no node for that collection. -/
theorem completedOperation_spec :
    (∀ (polls : Nat → BulkOperationNode) (fuel n : Nat) (r : BulkOperationNode),
      completedOperation polls 0 fuel = some (n, .error r) ↔
        (n < fuel ∧ (polls n).status = "FAILED" ∧ r = polls n
          ∧ ∀ m, m < n → (polls m).status ≠ "FAILED" ∧ (polls m).status ≠ "COMPLETED"))
    ∧ (∀ (polls : Nat → BulkOperationNode) (fuel n : Nat) (r : BulkOperationNode),
      completedOperation polls 0 fuel = some (n, .ok r) ↔
        (n < fuel ∧ (polls n).status = "COMPLETED" ∧ r = polls n
          ∧ ∀ m, m < n → (polls m).status ≠ "FAILED" ∧ (polls m).status ≠ "COMPLETED"))
    ∧ (∀ (polls : Nat → BulkOperationNode) (start fuel : Nat),
        (polls start).status ≠ "FAILED" → (polls start).status ≠ "COMPLETED" →
        completedOperation polls start (fuel + 1) = completedOperation polls (start + 1) fuel)
    ∧ (∀ (env : PipelineEnv) (n : Nat) (r : BulkOperationNode),
        finishLastOperation env.currentPolls 0 env.drainFuel ≠ none →
        env.userErrors.isEmpty = true →
        completedOperation env.opPolls 0 env.opFuel = some (n, .error r) →
        sourceFromOperation env = ([.submitOp], .opFailed r)) := by
  refine ⟨?_, ?_, ?_, ?_⟩
  · intro polls fuel n r
    rw [completedOperation_eq_some_iff polls fuel 0 n (.error r)]
    constructor
    · rintro ⟨-, h2, hmid, hlast⟩
      rcases hlast with ⟨hfe, hres⟩ | ⟨-, -, hres⟩
      · injection hres with hres
        exact ⟨by omega, hfe, hres, fun m hm => hmid m (Nat.zero_le m) hm⟩
      · exact Except.noConfusion hres
    · rintro ⟨h1, hfe, hr, hmid⟩
      exact ⟨Nat.zero_le n, by omega, fun m _ hm => hmid m hm,
        Or.inl ⟨hfe, by rw [hr]⟩⟩
  · intro polls fuel n r
    rw [completedOperation_eq_some_iff polls fuel 0 n (.ok r)]
    constructor
    · rintro ⟨-, h2, hmid, hlast⟩
      rcases hlast with ⟨-, hres⟩ | ⟨-, hce, hres⟩
      · exact Except.noConfusion hres
      · injection hres with hres
        exact ⟨by omega, hce, hres, fun m hm => hmid m (Nat.zero_le m) hm⟩
    · rintro ⟨h1, hce, hr, hmid⟩
      refine ⟨Nat.zero_le n, by omega, fun m _ hm => hmid m hm,
        Or.inr ⟨?_, hce, by rw [hr]⟩⟩
      rw [hce]
      decide
  · intro polls start fuel hf hc
    simp [completedOperation, hf, hc]
  · intro env n r hdrain herr hcomp
    obtain ⟨k, hk⟩ := Option.ne_none_iff_exists'.mp hdrain
    simp [sourceFromOperation, hk, herr, hcomp]

/-- Poll responses for the `completedOperation` witness: `RUNNING` on the
first poll, `FAILED` afterwards. -/
def w5polls : Nat → BulkOperationNode := fun n =>
  if n = 0 then { status := "RUNNING", objectCount := "5", url := "u" }
  else { status := "FAILED", objectCount := "0", url := "" }

/-- Claim C5, witness for `completedOperation_spec` on a job that is running
once and then fails: the loop throws the second poll response. -/
theorem completedOperation_spec_witness :
    completedOperation w5polls 0 3 = some (1, .error (w5polls 1)) :=
  (completedOperation_spec.1 w5polls 3 1 (w5polls 1)).mpr
    ⟨by decide, by decide, rfl, by decide⟩

/-- Claim C7.  `finishLastOperation` returns exactly when the current bulk
operation is first observed absent or terminal; while a current operation
exists with a non-terminal status it polls again after the fixed interval;
consequently the pipeline submits a new job only after the drain phase has
observed the current operation absent or terminal. -/
theorem finishLastOperation_spec :
    (∀ (polls : Nat → Option CurrentBulkOperation) (fuel n : Nat),
      finishLastOperation polls 0 fuel = some n ↔
        (n < fuel ∧ currentDone (polls n) = true
          ∧ ∀ m, m < n → currentDone (polls m) = false))
    ∧ (∀ (polls : Nat → Option CurrentBulkOperation) (start fuel : Nat),
        currentDone (polls start) = false →
        finishLastOperation polls start (fuel + 1) = finishLastOperation polls (start + 1) fuel)
    ∧ (∀ env : PipelineEnv, PipeEvent.submitOp ∈ (sourceFromOperation env).1 →
        ∃ n, finishLastOperation env.currentPolls 0 env.drainFuel = some n
          ∧ currentDone (env.currentPolls n) = true) := by
  refine ⟨?_, ?_, ?_⟩
  · intro polls fuel n
    rw [finishLastOperation_eq_some_iff polls fuel 0 n]
    constructor
    · rintro ⟨-, h2, hdone, hmid⟩
      exact ⟨by omega, hdone, fun m hm => hmid m (Nat.zero_le m) hm⟩
    · rintro ⟨h1, hdone, hmid⟩
      exact ⟨Nat.zero_le n, by omega, hdone, fun m _ hm => hmid m hm⟩
  · intro polls start fuel hd
    simp [finishLastOperation, hd]
  · intro env hmem
    cases hd : finishLastOperation env.currentPolls 0 env.drainFuel with
    | none =>
      rw [sourceFromOperation] at hmem
      rw [hd] at hmem
      simp at hmem
    | some k =>
      obtain ⟨-, -, hdone, -⟩ :=
        (finishLastOperation_eq_some_iff env.currentPolls env.drainFuel 0 k).mp hd
      exact ⟨k, rfl, hdone⟩

/-- Drain-phase poll responses for the `finishLastOperation` witness: a
`RUNNING` current operation on the first poll, then none. -/
def w7polls : Nat → Option CurrentBulkOperation := fun n =>
  if n = 0 then some { id := "gid1", status := "RUNNING" } else none

/-- Claim C7, witness for `finishLastOperation_spec` on a drain phase that
sees a running job once and then no current job: the loop returns after the
second poll. -/
theorem finishLastOperation_spec_witness :
    finishLastOperation w7polls 0 3 = some 1 :=
  (finishLastOperation_spec.1 w7polls 3 1).mpr ⟨by decide, by decide, by decide⟩

/-- Claim C9.  When every poll reports status `CANCELED`, `completedOperation`
never terminates — it treats `CANCELED` as non-terminal and polls forever —
even though `CANCELED` is listed among the terminal statuses
(`finishedStatuses`) by the drain phase in the same file. -/
theorem completedOperation_canceled_nonterminating (polls : Nat → BulkOperationNode)
    (h : ∀ k, (polls k).status = "CANCELED") :
    (∀ start fuel, completedOperation polls start fuel = none)
    ∧ "CANCELED" ∈ finishedStatuses := by
  refine ⟨?_, by decide⟩
  intro start fuel
  induction fuel generalizing start with
  | zero => rfl
  | succ fuel ih =>
    have hf : (polls start).status ≠ "FAILED" := by
      rw [h start]
      decide
    have hc : (polls start).status ≠ "COMPLETED" := by
      rw [h start]
      decide
    simp [completedOperation, hf, hc, ih]

/-- Poll responses for the `CANCELED` witness. -/
def w9polls : Nat → BulkOperationNode :=
  fun _ => { status := "CANCELED", objectCount := "0", url := "" }

/-- Claim C9, witness for `completedOperation_canceled_nonterminating`: with
every poll `CANCELED`, the loop is still polling after five iterations. -/
theorem completedOperation_canceled_nonterminating_witness :
    completedOperation w9polls 0 5 = none :=
  (completedOperation_canceled_nonterminating w9polls (fun _ => rfl)).1 0 5

/-- Claim C8.  For every job that completes, if its `objectCount` string
parses in base 10 to exactly zero the pipeline fetches no result stream,
builds no records, publishes no nodes, and ends in success; for any
`objectCount` that does not parse to zero the pipeline proceeds to fetch the
result URL. -/
theorem sourceFromOperation_zeroCount_spec (env : PipelineEnv) (n : Nat)
    (resp : BulkOperationNode)
    (hdrain : finishLastOperation env.currentPolls 0 env.drainFuel ≠ none)
    (herr : env.userErrors.isEmpty = true)
    (hcomp : completedOperation env.opPolls 0 env.opFuel = some (n, .ok resp)) :
    (jsParseInt resp.objectCount = some 0 →
      sourceFromOperation env = ([.submitOp], .success))
    ∧ (jsParseInt resp.objectCount ≠ some 0 →
      PipeEvent.fetchResults resp.url ∈ (sourceFromOperation env).1) := by
  obtain ⟨k, hk⟩ := Option.ne_none_iff_exists'.mp hdrain
  constructor
  · intro hz
    simp [sourceFromOperation, hk, herr, hcomp, hz]
  · intro hz
    simp [sourceFromOperation, hk, herr, hcomp, hz]

/-- Environment for the zero-count witness: no current operation, no user
errors, a job that completes immediately with `objectCount = "0"`. -/
def w8env : PipelineEnv :=
  { currentPolls := fun _ => none
    drainFuel := 1
    userErrors := []
    opPolls := fun _ => { status := "COMPLETED", objectCount := "0", url := "u" }
    opFuel := 1
    results := fun _ => []
    build := fun r => .ok r }

/-- Claim C8, witness for `sourceFromOperation_zeroCount_spec`: a completed
job with `objectCount = "0"` yields only the submission event and success. -/
theorem sourceFromOperation_zeroCount_spec_witness :
    sourceFromOperation w8env = ([.submitOp], .success) :=
  (sourceFromOperation_zeroCount_spec w8env 0
      { status := "COMPLETED", objectCount := "0", url := "u" }
      (by decide) rfl rfl).1 rfl

/-- Claim C6.  A sync pass reads `LAST_BUILD_TIME` at its start and chooses
the full load exactly when it is absent (every persisted value is a positive
epoch-milliseconds timestamp); on success of the chosen pass the timestamp is
set to the current time, and on an error raised during the pass it is left
unchanged. -/
theorem sourceNodes_timestamp_spec (fullPass deltaPass : Except String Unit)
    (now : Nat) (lbt : Option Nat) (hpos : ∀ t, lbt = some t → t ≠ 0) :
    (lbt = none → fullPass = .ok () →
      sourceNodes fullPass deltaPass now lbt = (some now, .ok ()))
    ∧ (∀ e, lbt = none → fullPass = .error e →
      sourceNodes fullPass deltaPass now lbt = (none, .error e))
    ∧ (∀ t, lbt = some t → deltaPass = .ok () →
      sourceNodes fullPass deltaPass now lbt = (some now, .ok ()))
    ∧ (∀ t e, lbt = some t → deltaPass = .error e →
      sourceNodes fullPass deltaPass now lbt = (some t, .error e)) := by
  refine ⟨?_, ?_, ?_, ?_⟩
  · rintro rfl hok
    simp [sourceNodes, hok]
  · rintro e rfl herr
    simp [sourceNodes, herr]
  · rintro t rfl hok
    have ht : t ≠ 0 := hpos t rfl
    simp [sourceNodes, hok, bne_iff_ne, ht]
  · rintro t e rfl herr
    have ht : t ≠ 0 := hpos t rfl
    simp [sourceNodes, herr, bne_iff_ne, ht]

/-- Claim C6, witness for `sourceNodes_timestamp_spec`: with a stored
timestamp `5` and a successful delta pass, the timestamp advances to the
current time `9`. -/
theorem sourceNodes_timestamp_spec_witness :
    sourceNodes (.ok ()) (.ok ()) 9 (some 5) = (some 9, .ok ()) :=
  (sourceNodes_timestamp_spec (.ok ()) (.ok ()) 9 (some 5)
      (fun t h => by injection h with h; omega)).2.2.1 5 rfl rfl

end ShopifyPoc
